import Mathlib

/-!
# Face store (sqlite_object.c) and similarity index (faiss_object.cpp)

A shallow embedding of the two programs of the repository.

* The `Faces` table is a list of rows in rowid order (the order in which a
  `SELECT` without `ORDER BY` walks a rowid table) together with the
  `sqlite_sequence` counter that `AUTOINCREMENT` keeps.
* Every engine call can fail: an `Engine` value says which call of one
  function invocation fails.  The source only ever compares result codes with
  `SQLITE_OK`, `SQLITE_ROW` and `SQLITE_DONE`, so every other code is the one
  constructor `SQLITE_ERROR`.
* Values of C type `int` passed to a function (age, version, id) are `Int`;
  stored integers are the engine's 64-bit values, and every read of one with
  `sqlite3_column_int` (the version in the lookup, `COUNT(*)` in the count)
  is modelled with an explicit wrap to 32 bits.
-/

namespace FaceStore

/-! ## Data model -/

abbrev Byte := Fin 256

abbrev Blob := List Byte

/-- One row of `Faces`, columns as in `create_table_sql`. -/
structure Row where
  ID : Int
  Name : String
  Age : Int
  Gender : String
  Hairstyle : String
  FeatureVersion : Int
  FeatureVector : Blob
deriving DecidableEq, Repr

/-- The database behind a `sqlite3*` handle: the rows of `Faces` in rowid
order and the largest rowid ever handed out (`sqlite_sequence`). -/
structure Db where
  rows : List Row
  seq : Int
deriving DecidableEq, Repr

/-- The table right after `CREATE TABLE`. -/
def Db.empty : Db := { rows := [], seq := 0 }

/-- Result codes, as far as the source tells them apart. -/
inductive Rc where
  | SQLITE_OK
  | SQLITE_ROW
  | SQLITE_DONE
  | SQLITE_ERROR
deriving DecidableEq, Repr

/-- What goes wrong during one function invocation: whether
`sqlite3_prepare_v2` fails, which call of `sqlite3_step` (counted from 0)
fails, and whether `malloc` returns `NULL`. -/
structure Engine where
  prepareFails : Bool
  stepFailsAt : Option Nat
  mallocFails : Bool
deriving DecidableEq, Repr

/-- An engine on which nothing fails. -/
def Engine.healthy : Engine :=
  { prepareFails := false, stepFailsAt := none, mallocFails := false }

/-- The engine accepts the statement: prepare and every step go through. -/
def Engine.accepts (e : Engine) : Prop :=
  e.prepareFails = false ∧ e.stepFailsAt = none

instance (e : Engine) : Decidable e.accepts := by
  unfold Engine.accepts; infer_instance

/-! ## Engine primitives -/

/-- Modelled from the spec: the persistence engine is a library that is not
under src.  Preparing a statement either fails or gives `SQLITE_OK`. -/
def sqlite3_prepare_v2 (e : Engine) : Rc :=
  if e.prepareFails then Rc.SQLITE_ERROR else Rc.SQLITE_OK

/-- Largest rowid present in the table, 0 when it is empty. -/
def maxRowid : List Row → Int
  | [] => 0
  | r :: rs => max r.ID (maxRowid rs)

/-- Modelled from the spec: the engine is not under src.  ID assignment is
engine-controlled and monotonic: `AUTOINCREMENT` hands out one more than the
largest rowid that ever existed in the table. -/
def nextRowid (db : Db) : Int := max db.seq (maxRowid db.rows) + 1

/-- Modelled from the spec: the engine is not under src.  Its insert-row
primitive, one `sqlite3_step` of the `INSERT` statement with the six bound
values: a new row after the existing ones, the blob stored byte for byte. -/
def step_insert (e : Engine) (db : Db) (name : String) (age : Int)
    (gender hairstyle : String) (version : Int) (blob : Blob) : Rc × Db :=
  if e.stepFailsAt = some 0 then (Rc.SQLITE_ERROR, db)
  else
    let id := nextRowid db
    (Rc.SQLITE_DONE,
      { rows := db.rows ++ [{ ID := id, Name := name, Age := age, Gender := gender,
                              Hairstyle := hairstyle, FeatureVersion := version,
                              FeatureVector := blob }],
        seq := id })

/-- Modelled from the spec: the engine is not under src.  Its
select-by-predicate primitive, the `i`-th `sqlite3_step` of a `SELECT` whose
result rows (in the engine's row order) are `result`: the current row if
there is one, else `SQLITE_DONE`. -/
def step_select (e : Engine) (result : List Row) (i : Nat) : Rc × Option Row :=
  if e.stepFailsAt = some i then (Rc.SQLITE_ERROR, none)
  else
    match result.get? i with
    | some r => (Rc.SQLITE_ROW, some r)
    | none => (Rc.SQLITE_DONE, none)

/-- Modelled from the spec: the engine is not under src.  Its
delete-by-predicate primitive, one `sqlite3_step` of a `DELETE ... WHERE`
statement: every row on which the predicate holds goes, the others stay as
they are. -/
def step_delete (e : Engine) (db : Db) (p : Row → Bool) : Rc × Db :=
  if e.stepFailsAt = some 0 then (Rc.SQLITE_ERROR, db)
  else (Rc.SQLITE_DONE, { db with rows := db.rows.filter (fun r => !p r) })

/-- Narrowing of a 64-bit engine integer to the 32-bit C `int` that
`sqlite3_column_int` returns. -/
def toInt32 (x : Int) : Int := (x + 2147483648) % 4294967296 - 2147483648

/-- The integer is a value of the C type `int` (32 bits). -/
def isCInt (x : Int) : Prop := -2147483648 ≤ x ∧ x < 2147483648

instance (x : Int) : Decidable (isCInt x) := by
  unfold isCInt; infer_instance

/-! ## sqlite_object.c -/

namespace sqlite_object

/-- Embedding of `sqlite_add_face`: `feature` is the memory the pointer
designates, of which `feature_size` bytes are bound. -/
def sqlite_add_face (e : Engine) (db : Db) (name : String) (age : Int)
    (gender hairstyle : String) (version : Int) (feature : Blob)
    (feature_size : Nat) : Db :=
  if sqlite3_prepare_v2 e ≠ Rc.SQLITE_OK then db
  else
    (step_insert e db name age gender hairstyle version
      (feature.take feature_size)).2

/-- The `struct object` of the source. -/
structure object where
  name : String
  age : Int
  gender : String
  hairstyle : String
  version : Int
  feature : Blob
  feature_size : Nat
deriving DecidableEq, Repr

def add_face (e : Engine) (db : Db) (face : object) : Db :=
  sqlite_add_face e db face.name face.age face.gender face.hairstyle
    face.version face.feature face.feature_size

/-- Return value and out-parameters of `get_feature_by_name`; an
out-parameter the call did not write is `none`, and so is `*feature` when
`malloc` returned `NULL`. -/
structure GetResult where
  ret : Int
  feature : Option Blob
  feature_size : Option Nat
  version : Option Int
deriving DecidableEq, Repr

def get_feature_by_name (e : Engine) (db : Db) (name : String) : GetResult :=
  if sqlite3_prepare_v2 e ≠ Rc.SQLITE_OK then
    { ret := -1, feature := none, feature_size := none, version := none }
  else
    match step_select e (db.rows.filter (fun r => r.Name == name)) 0 with
    | (Rc.SQLITE_ROW, some r) =>
      if e.mallocFails then
        { ret := -1, feature := none, feature_size := none, version := none }
      else
        { ret := 0, feature := some r.FeatureVector,
          feature_size := some r.FeatureVector.length,
          version := some (toInt32 r.FeatureVersion) }
    | _ =>
      { ret := -1, feature := none, feature_size := none, version := none }

def sqlite_face_count (e : Engine) (db : Db) : Int :=
  if sqlite3_prepare_v2 e ≠ Rc.SQLITE_OK then -1
  else if e.stepFailsAt = some 0 then 0
  else toInt32 db.rows.length

def delete_face_by_id (e : Engine) (db : Db) (id : Int) : Db :=
  if sqlite3_prepare_v2 e ≠ Rc.SQLITE_OK then db
  else (step_delete e db (fun r => r.ID == id)).2

def delete_face_by_name (e : Engine) (db : Db) (name : String) : Db :=
  if sqlite3_prepare_v2 e ≠ Rc.SQLITE_OK then db
  else (step_delete e db (fun r => r.Name == name)).2

end sqlite_object

/-! ## faiss_object.cpp -/

namespace faiss_object

/-- Dimensionality of the feature vectors. -/
def dimension : Nat := 128

/-- Number of clusters (declared, never used). -/
def nlist : Nat := 100

def sizeof_float : Nat := 4

/-- Return value of `get_feature_by_name` and the caller's buffer `feature`
(`none` when the call did not write it). -/
structure GetResult where
  ret : Int
  feature : Option Blob
deriving DecidableEq, Repr

def get_feature_by_name (e : Engine) (db : Db) (name : String) : GetResult :=
  if sqlite3_prepare_v2 e ≠ Rc.SQLITE_OK then { ret := -1, feature := none }
  else
    match step_select e (db.rows.filter (fun r => r.Name == name)) 0 with
    | (Rc.SQLITE_ROW, some r) =>
      if r.FeatureVector.length ≠ dimension * sizeof_float then
        { ret := -1, feature := none }
      else
        { ret := 0, feature := some r.FeatureVector }
    | _ => { ret := -1, feature := none }

/-- A well-formed embedding whose `dimension * 4` bytes all equal `b`. -/
def constVec (b : Byte) : Blob := List.replicate (dimension * sizeof_float) b

/-- The state of a `faiss::IndexFlatL2`: its dimension and the stored
vectors in slot order, each kept as the `d * 4` bytes `add` read. -/
structure IndexFlatL2 where
  d : Nat
  xb : List Blob
deriving DecidableEq, Repr

/-- Modelled from the spec: the index class is library code that is not
under src.  The constructor `faiss::IndexFlatL2 index(d)`: the empty index. -/
def IndexFlatL2.new (d : Nat) : IndexFlatL2 := { d := d, xb := [] }

def IndexFlatL2.ntotal (index : IndexFlatL2) : Nat := index.xb.length

/-- Modelled from the spec: the index class is library code that is not
under src.  The call `index.add(1, x)`: the `d` floats at `x` become the next
slot, slots being numbered in the order of the calls. -/
def IndexFlatL2.add (index : IndexFlatL2) (x : Blob) : IndexFlatL2 :=
  { index with xb := index.xb ++ [x.take (index.d * sizeof_float)] }

/-- What `build_faiss_index_from_sqlite` leaves behind: its return value,
the index it was handed by reference, and whether it closed the handle. -/
structure BuildResult where
  ret : Int
  index : IndexFlatL2
  db_closed : Bool
deriving DecidableEq, Repr

/-- The `while` loop of `build_faiss_index_from_sqlite`, about to make step
number `i` with `rows` still ahead of the cursor.  A step that does not
return `SQLITE_ROW` (end of table or an error) leaves the loop, and the
function then returns 0. -/
def build_loop (e : Engine) : List Row → Nat → IndexFlatL2 → BuildResult
  | [], _, index => { ret := 0, index := index, db_closed := false }
  | r :: rest, i, index =>
    if e.stepFailsAt = some i then
      { ret := 0, index := index, db_closed := false }
    else if r.FeatureVector.length ≠ dimension * sizeof_float then
      { ret := 1, index := index, db_closed := true }
    else
      build_loop e rest (i + 1) (index.add r.FeatureVector)

def build_faiss_index_from_sqlite (e : Engine) (db : Db)
    (index : IndexFlatL2) : BuildResult :=
  if sqlite3_prepare_v2 e ≠ Rc.SQLITE_OK then
    { ret := 1, index := index, db_closed := true }
  else build_loop e db.rows 0 index

/-- Order in which the search ranks candidates `(distance, slot)`: by
distance, ties by ascending slot. -/
def candLe {F : Type} [LinearOrder F] (a b : F × Nat) : Prop :=
  a.1 < b.1 ∨ (a.1 = b.1 ∧ a.2 ≤ b.2)

instance {F : Type} [LinearOrder F] : DecidableRel (candLe : F × Nat → F × Nat → Prop) :=
  fun a b => by unfold candLe; infer_instance

/-- Every slot with its distance to the query. -/
def candidates {F : Type} (dist : Blob → Blob → F) (index : IndexFlatL2)
    (q : Blob) : List (F × Nat) :=
  index.xb.enum.map (fun p => (dist q p.2, p.1))

/-- The `k` best candidates, best first. -/
def nearest {F : Type} [LinearOrder F] (dist : Blob → Blob → F)
    (index : IndexFlatL2) (q : Blob) (k : Nat) : List (F × Nat) :=
  ((candidates dist index q).insertionSort candLe).take k

/-- The `d` floats at the start of a blob, 4 bytes each; `f32` gives the
value of one float from its 4 bytes. -/
def floats (f32 : Blob → ℚ) : Nat → Blob → List ℚ
  | 0, _ => []
  | d + 1, b => f32 (b.take 4) :: floats f32 d (b.drop 4)

/-- Modelled from the spec: the metric of the library's flat index, which is
not under src.  The spec gives it as squared L2, the sum of `(q_i - v_i)²`
over the `d` components. -/
def L2sqr (f32 : Blob → ℚ) (d : Nat) (q v : Blob) : ℚ :=
  (List.zipWith (fun a b => (a - b) ^ 2) (floats f32 d q) (floats f32 d v)).sum

/-- One result of a search: the slot `I[i]` and its distance `D[i]`. -/
structure Hit where
  label : Nat
  dis : ℚ
deriving DecidableEq, Repr

/-- Modelled from the spec: the body of `faiss::IndexFlatL2::search` is
library code that is not under src.  As the spec describes it, the search
computes the squared L2 distance from the query to every slot, selects the
`k` smallest and returns them ascending by distance, ties by ascending slot;
if `k` exceeds the number of slots it returns all available results, fewer
than `k`. -/
def IndexFlatL2.search (f32 : Blob → ℚ) (index : IndexFlatL2) (q : Blob)
    (k : Nat) : List Hit :=
  (nearest (L2sqr f32 index.d) index q k).map (fun c => { label := c.2, dis := c.1 })

/-- Lines 113-126 of `main` with `k` a parameter: search, then visit the
positions `i` in `[0, k)` of the result buffers, one line `(rank, result)`
each; a position the search did not fill carries no result. -/
def main_search (f32 : Blob → ℚ) (index : IndexFlatL2) (query_feature : Blob)
    (k : Nat) : List (Nat × Option Hit) :=
  let buf := index.search f32 query_feature k
  (List.range k).map (fun i => (i + 1, buf[i]?))

/-- The query path of `main`, lines 94-126, with the query vector and `k` as
parameters: create the index, build it from the store, search and read the
results back. -/
def main_query (f32 : Blob → ℚ) (e : Engine) (db : Db) (query_feature : Blob)
    (k : Nat) : List (Nat × Option Hit) :=
  main_search f32
    (build_faiss_index_from_sqlite e db (IndexFlatL2.new dimension)).index query_feature k

/-- Value of a finite IEEE-754 binary32 number from its 4 bytes, least
significant byte first (sign bit, 8 exponent bits with bias 127, 23 fraction
bits).  Infinities and NaN (exponent 255) are not numbers and are outside
what this reads correctly. -/
def f32le (b : Blob) : ℚ :=
  let bits : Nat := b.foldr (fun x acc => x.val + 256 * acc) 0
  let s := bits / 2147483648
  let e := bits / 8388608 % 256
  let m := bits % 8388608
  let mag : ℚ :=
    if e = 0 then (m : ℚ) / 2 ^ 149
    else if 150 ≤ e then ((8388608 + m : Nat) : ℚ) * 2 ^ (e - 150)
    else ((8388608 + m : Nat) : ℚ) / 2 ^ (150 - e)
  if s = 1 then -mag else mag

/-- The embedding that starts with the bytes `cs` and is 0.0 in every
remaining component. -/
def padVec (cs : Blob) : Blob :=
  (cs ++ List.replicate (dimension * sizeof_float) 0).take (dimension * sizeof_float)

/-- The 4 bytes of the float 1.0. -/
def one_f32 : Blob := [0, 0, 128, 63]

/-- The 4 bytes of the float 0.0. -/
def zero_f32 : Blob := [0, 0, 0, 0]

/-- The store of the spec's concrete scenario: records "A", "B", "C" with
the embeddings `[1,0,...]`, `[0,1,...]`, `[1,1,...]`, rest zero. -/
def scenarioDb : Db :=
  { rows := [{ ID := 1, Name := "A", Age := 30, Gender := "Male", Hairstyle := "Short",
               FeatureVersion := 1, FeatureVector := padVec one_f32 },
             { ID := 2, Name := "B", Age := 31, Gender := "Female", Hairstyle := "Long",
               FeatureVersion := 1, FeatureVector := padVec (zero_f32 ++ one_f32) },
             { ID := 3, Name := "C", Age := 32, Gender := "Male", Hairstyle := "Short",
               FeatureVersion := 1, FeatureVector := padVec (one_f32 ++ one_f32) }],
    seq := 3 }

end faiss_object

/-! ## Call sequences on the store -/

/-- One call of the store's writing interface. -/
inductive Op where
  | add (name : String) (age : Int) (gender hairstyle : String) (version : Int)
      (feature : Blob) (feature_size : Nat)
  | delById (id : Int)
  | delByName (name : String)
deriving DecidableEq, Repr

/-- Run one call on a healthy engine. -/
def Op.run (db : Db) : Op → Db
  | .add n a g h v f s => sqlite_object.sqlite_add_face Engine.healthy db n a g h v f s
  | .delById id => sqlite_object.delete_face_by_id Engine.healthy db id
  | .delByName n => sqlite_object.delete_face_by_name Engine.healthy db n

/-- Run a sequence of calls, first to last. -/
def runOps (db : Db) (ops : List Op) : Db := ops.foldl Op.run db

/-- A later call deletes the record with identity `id` and name `n`. -/
def Op.deletes (id : Int) (n : String) : Op → Bool
  | .add .. => false
  | .delById i => i == id
  | .delByName m => m == n

/-- The record `(id, n)` is live after the calls `later`: none deleted it. -/
def survives (id : Int) (n : String) (later : List Op) : Bool :=
  later.all (fun op => !op.deletes id n)

/-- The count in the spec's words: the number of records inserted and not
since deleted.  The store numbers inserted records 1, 2, 3, ... (`next` is
the identity the next insert gets); an inserted record is counted when no
later call deletes it by that identity or by its name. -/
def liveCount : Int → List Op → Nat
  | _, [] => 0
  | next, .add n _ _ _ _ _ _ :: later =>
    (if survives next n later then 1 else 0) + liveCount (next + 1) later
  | next, _ :: later => liveCount next later

/-- The rows are in strictly ascending rowid order. -/
def Db.sorted (db : Db) : Prop := db.rows.Pairwise (fun a b => a.ID < b.ID)

/-! ## Engine lemmas -/

theorem prepare_ok_of_accepts (e : Engine) (h : e.accepts) :
    sqlite3_prepare_v2 e = Rc.SQLITE_OK := by
  simp [sqlite3_prepare_v2, h.1]

theorem filter_get?_zero (p : Row → Bool) (l : List Row) :
    (l.filter p).get? 0 = l.find? p := by
  induction l with
  | nil => rfl
  | cons r rs ih =>
    by_cases hp : p r = true
    · simp [List.filter_cons, List.find?_cons, hp]
    · simp only [Bool.not_eq_true] at hp
      simp only [List.get?_eq_getElem?] at ih
      simp [List.filter_cons, List.find?_cons, hp, ih]

theorem step_select_first (e : Engine) (h : e.stepFailsAt ≠ some 0) (p : Row → Bool)
    (l : List Row) :
    step_select e (l.filter p) 0 =
      match l.find? p with
      | some r => (Rc.SQLITE_ROW, some r)
      | none => (Rc.SQLITE_DONE, none) := by
  simp only [step_select, h, if_false, filter_get?_zero]

theorem find?_name_none (l : List Row) (n : String) (h : ∀ r ∈ l, r.Name ≠ n) :
    l.find? (fun r => r.Name == n) = none := by
  simp only [List.find?_eq_none, beq_iff_eq]
  exact fun r hr => h r hr

theorem find?_append_fresh (l : List Row) (n : String) (h : ∀ r ∈ l, r.Name ≠ n)
    (x : Row) (hx : x.Name = n) :
    (l ++ [x]).find? (fun r => r.Name == n) = some x := by
  rw [List.find?_append, find?_name_none l n h]
  simp [List.find?_cons, hx]

/-- What the record-store lookup returns once prepare went through and the
first step did not fail, in terms of the first row with the name. -/
theorem sqlite_get_eq (e : Engine) (db : Db) (n : String)
    (hp : e.prepareFails = false) (hs : e.stepFailsAt ≠ some 0) :
    sqlite_object.get_feature_by_name e db n =
      match db.rows.find? (fun r => r.Name == n) with
      | some r =>
        if e.mallocFails then
          { ret := -1, feature := none, feature_size := none, version := none }
        else
          { ret := 0, feature := some r.FeatureVector,
            feature_size := some r.FeatureVector.length,
            version := some (toInt32 r.FeatureVersion) }
      | none => { ret := -1, feature := none, feature_size := none, version := none } := by
  unfold sqlite_object.get_feature_by_name
  simp only [sqlite3_prepare_v2, hp, step_select_first e hs]
  cases db.rows.find? (fun r => r.Name == n) <;> simp

theorem faiss_get_eq (e : Engine) (db : Db) (n : String)
    (hp : e.prepareFails = false) (hs : e.stepFailsAt ≠ some 0) :
    faiss_object.get_feature_by_name e db n =
      match db.rows.find? (fun r => r.Name == n) with
      | some r =>
        if r.FeatureVector.length ≠ faiss_object.dimension * faiss_object.sizeof_float then
          { ret := -1, feature := none }
        else { ret := 0, feature := some r.FeatureVector }
      | none => { ret := -1, feature := none } := by
  unfold faiss_object.get_feature_by_name
  simp only [sqlite3_prepare_v2, hp, step_select_first e hs]
  cases db.rows.find? (fun r => r.Name == n) <;> simp

theorem add_face_rows (e : Engine) (db : Db) (n : String) (age : Int) (g h : String)
    (ver : Int) (f : Blob) (s : Nat) (hp : e.prepareFails = false)
    (hs : e.stepFailsAt ≠ some 0) :
    sqlite_object.sqlite_add_face e db n age g h ver f s =
      { rows := db.rows ++ [{ ID := nextRowid db, Name := n, Age := age, Gender := g,
                              Hairstyle := h, FeatureVersion := ver,
                              FeatureVector := f.take s }],
        seq := nextRowid db } := by
  simp [sqlite_object.sqlite_add_face, sqlite3_prepare_v2, hp, step_insert, hs]

theorem toInt32_of_isCInt (x : Int) (h : isCInt x) : toInt32 x = x := by
  unfold isCInt at h
  unfold toInt32
  omega

/-! ## C1: round trip of the record store -/

/-- C1. Round trip: on a table with no row named `n`, after an accepted
`sqlite_add_face` of the blob `v` (all `v.length` bytes of it) with a
version that is a C `int`, as the parameter is declared, the record-store
lookup by `n` returns 0, `feature_size = v.length`, the bytes of `v` in
order, and the version that was inserted. -/
theorem C1_add_then_get_roundtrip (e1 e2 : Engine) (db : Db) (n : String) (age : Int)
    (gender hairstyle : String) (version : Int) (v : Blob)
    (hversion : isCInt version)
    (hfresh : ∀ r ∈ db.rows, r.Name ≠ n)
    (hadd : e1.accepts) (hget : e2.accepts) (hmalloc : e2.mallocFails = false) :
    sqlite_object.get_feature_by_name e2
        (sqlite_object.sqlite_add_face e1 db n age gender hairstyle version v v.length) n
      = { ret := 0, feature := some v, feature_size := some v.length,
          version := some version } := by
  have h1 : e1.stepFailsAt ≠ some 0 := by rw [hadd.2]; simp
  have h2 : e2.stepFailsAt ≠ some 0 := by rw [hget.2]; simp
  rw [add_face_rows e1 db n age gender hairstyle version v v.length hadd.1 h1,
    sqlite_get_eq e2 _ n hget.1 h2]
  simp only
  rw [find?_append_fresh db.rows n hfresh _ rfl]
  simp [hmalloc, toInt32_of_isCInt version hversion]

theorem C1_add_then_get_roundtrip_witness :
    sqlite_object.get_feature_by_name Engine.healthy
        (sqlite_object.sqlite_add_face Engine.healthy
          { rows := [{ ID := 1, Name := "John", Age := 30, Gender := "Male",
                       Hairstyle := "Short", FeatureVersion := 1,
                       FeatureVector := [1, 2] }], seq := 1 }
          "Ann" 30 "Female" "Short" 7 [9, 8, 7] ([9, 8, 7] : Blob).length) "Ann"
      = { ret := 0, feature := some [9, 8, 7],
          feature_size := some ([9, 8, 7] : Blob).length, version := some 7 } :=
  C1_add_then_get_roundtrip Engine.healthy Engine.healthy _ "Ann" 30 "Female" "Short" 7
    [9, 8, 7] (by decide) (by decide) (by decide) (by decide) rfl

/-! ## C5: the insert makes no size check -/

/-- C5, counterexample. A 3-byte embedding (3 ≠ 128 * 4) is inserted into
the empty table: the table then holds one complete row. -/
theorem C5_wrong_size_is_inserted :
    (3 : Nat) ≠ faiss_object.dimension * faiss_object.sizeof_float ∧
    (sqlite_object.sqlite_add_face Engine.healthy Db.empty "John" 30 "Male" "Short" 1
        [1, 2, 3] 3).rows
      = [{ ID := 1, Name := "John", Age := 30, Gender := "Male", Hairstyle := "Short",
           FeatureVersion := 1, FeatureVector := [1, 2, 3] }] ∧
    (sqlite_object.sqlite_add_face Engine.healthy Db.empty "John" 30 "Male" "Short" 1
        [1, 2, 3] 3).rows ≠ Db.empty.rows := by
  decide

/-- C5, amended. `sqlite_add_face` never looks at the size: whatever
`feature_size` is (512 or not), the insert appends exactly one complete row
that holds the `feature_size` bytes given, all earlier rows staying as they
were and in place, unless the engine rejects the statement (prepare or step
fails); only then is the table left as it was.  `add_face` is the same call
on the fields of the struct. -/
theorem C5_insert_any_size (e : Engine) (db : Db) (name : String) (age : Int)
    (gender hairstyle : String) (version : Int) (feature : Blob) (feature_size : Nat) :
    sqlite_object.sqlite_add_face e db name age gender hairstyle version feature
        feature_size
      = (if e.prepareFails = true ∨ e.stepFailsAt = some 0 then db
         else
          { rows := db.rows ++ [{ ID := nextRowid db, Name := name, Age := age,
                                  Gender := gender, Hairstyle := hairstyle,
                                  FeatureVersion := version,
                                  FeatureVector := feature.take feature_size }],
            seq := nextRowid db }) ∧
    sqlite_object.add_face e db
        { name := name, age := age, gender := gender, hairstyle := hairstyle,
          version := version, feature := feature, feature_size := feature_size }
      = sqlite_object.sqlite_add_face e db name age gender hairstyle version feature
          feature_size := by
  refine ⟨?_, rfl⟩
  by_cases hp : e.prepareFails = true
  · simp [sqlite_object.sqlite_add_face, sqlite3_prepare_v2, hp]
  · by_cases hs : e.stepFailsAt = some 0
    · simp [sqlite_object.sqlite_add_face, step_insert, hs]
    · simp only [Bool.not_eq_true] at hp
      rw [add_face_rows e db name age gender hairstyle version feature feature_size hp hs]
      simp [hp, hs]

/-! ## C6: a missing name gives the failure result -/

/-- C6, counterexample. On the empty table the lookup of a missing name on a
healthy engine returns exactly what it returns when prepare fails and when
the step fails, in both programs: -1 and no out-parameter written. -/
theorem C6_not_found_equals_error :
    sqlite_object.get_feature_by_name Engine.healthy Db.empty "John"
      = sqlite_object.get_feature_by_name
          { prepareFails := true, stepFailsAt := none, mallocFails := false }
          Db.empty "John" ∧
    sqlite_object.get_feature_by_name Engine.healthy Db.empty "John"
      = sqlite_object.get_feature_by_name
          { prepareFails := false, stepFailsAt := some 0, mallocFails := false }
          Db.empty "John" ∧
    (sqlite_object.get_feature_by_name Engine.healthy Db.empty "John").ret = -1 ∧
    faiss_object.get_feature_by_name Engine.healthy Db.empty "John"
      = faiss_object.get_feature_by_name
          { prepareFails := false, stepFailsAt := some 0, mallocFails := false }
          Db.empty "John" := by
  decide

/-- C6, amended. For every table with no row named `n`, the lookup returns
-1 and writes no out-parameter, on any engine; that is the very result it
gives on an engine error (prepare or step failure), so the two outcomes
cannot be told apart.  This holds for the lookup of either program. -/
theorem C6_not_found_is_failure (e ef : Engine) (db : Db) (n : String)
    (hno : ∀ r ∈ db.rows, r.Name ≠ n)
    (hfail : ef.prepareFails = true ∨ ef.stepFailsAt = some 0) :
    sqlite_object.get_feature_by_name e db n
      = { ret := -1, feature := none, feature_size := none, version := none } ∧
    sqlite_object.get_feature_by_name ef db n
      = sqlite_object.get_feature_by_name e db n ∧
    faiss_object.get_feature_by_name e db n = { ret := -1, feature := none } ∧
    faiss_object.get_feature_by_name ef db n
      = faiss_object.get_feature_by_name e db n := by
  have key : ∀ e' : Engine,
      sqlite_object.get_feature_by_name e' db n
        = { ret := -1, feature := none, feature_size := none, version := none } ∧
      faiss_object.get_feature_by_name e' db n = { ret := -1, feature := none } := by
    intro e'
    by_cases hp : e'.prepareFails = true
    · simp [sqlite_object.get_feature_by_name, faiss_object.get_feature_by_name,
        sqlite3_prepare_v2, hp]
    · simp only [Bool.not_eq_true] at hp
      by_cases hs : e'.stepFailsAt = some 0
      · simp [sqlite_object.get_feature_by_name, faiss_object.get_feature_by_name,
          sqlite3_prepare_v2, hp, step_select, hs]
      · rw [sqlite_get_eq e' db n hp hs, faiss_get_eq e' db n hp hs,
          find?_name_none db.rows n hno]
        exact ⟨rfl, rfl⟩
  have _ := hfail
  exact ⟨(key e).1, by rw [(key ef).1, (key e).1], (key e).2, by rw [(key ef).2, (key e).2]⟩

theorem C6_not_found_is_failure_witness :
    sqlite_object.get_feature_by_name Engine.healthy
        { rows := [{ ID := 1, Name := "John", Age := 30, Gender := "Male",
                     Hairstyle := "Short", FeatureVersion := 1,
                     FeatureVector := [1, 2] }], seq := 1 } "Ann"
      = { ret := -1, feature := none, feature_size := none, version := none } ∧
    sqlite_object.get_feature_by_name
        { prepareFails := false, stepFailsAt := some 0, mallocFails := false }
        { rows := [{ ID := 1, Name := "John", Age := 30, Gender := "Male",
                     Hairstyle := "Short", FeatureVersion := 1,
                     FeatureVector := [1, 2] }], seq := 1 } "Ann"
      = sqlite_object.get_feature_by_name Engine.healthy
        { rows := [{ ID := 1, Name := "John", Age := 30, Gender := "Male",
                     Hairstyle := "Short", FeatureVersion := 1,
                     FeatureVector := [1, 2] }], seq := 1 } "Ann" ∧
    faiss_object.get_feature_by_name Engine.healthy
        { rows := [{ ID := 1, Name := "John", Age := 30, Gender := "Male",
                     Hairstyle := "Short", FeatureVersion := 1,
                     FeatureVector := [1, 2] }], seq := 1 } "Ann"
      = { ret := -1, feature := none } ∧
    faiss_object.get_feature_by_name
        { prepareFails := false, stepFailsAt := some 0, mallocFails := false }
        { rows := [{ ID := 1, Name := "John", Age := 30, Gender := "Male",
                     Hairstyle := "Short", FeatureVersion := 1,
                     FeatureVector := [1, 2] }], seq := 1 } "Ann"
      = faiss_object.get_feature_by_name Engine.healthy
        { rows := [{ ID := 1, Name := "John", Age := 30, Gender := "Male",
                     Hairstyle := "Short", FeatureVersion := 1,
                     FeatureVector := [1, 2] }], seq := 1 } "Ann" :=
  C6_not_found_is_failure Engine.healthy
    { prepareFails := false, stepFailsAt := some 0, mallocFails := false }
    { rows := [{ ID := 1, Name := "John", Age := 30, Gender := "Male",
                 Hairstyle := "Short", FeatureVersion := 1,
                 FeatureVector := [1, 2] }], seq := 1 } "Ann"
    (by decide) (Or.inr rfl)

/-! ## C7 and C8: what the lookup does with the first matching row -/

/-- C7, counterexample. The only row named "John" holds a 3-byte blob
(3 ≠ 512); the record-store lookup returns 0 and hands the 3 bytes back. -/
theorem C7_malformed_blob_is_returned :
    ([1, 2, 3] : Blob).length ≠ faiss_object.dimension * faiss_object.sizeof_float ∧
    sqlite_object.get_feature_by_name Engine.healthy
        { rows := [{ ID := 1, Name := "John", Age := 30, Gender := "Male",
                     Hairstyle := "Short", FeatureVersion := 1,
                     FeatureVector := [1, 2, 3] }], seq := 1 } "John"
      = { ret := 0, feature := some [1, 2, 3], feature_size := some 3,
          version := some 1 } := by
  decide

/-- C7, amended. When the first row named `n` holds a blob whose length is
not 512, the lookup of sqlite_object.c (engine accepting, allocation
succeeding) returns 0 and hands back that blob with `feature_size` its
length, whatever it is, and the row's version read as a 32-bit `int`; the
size check is in the lookup of
faiss_object.cpp, which returns -1 on the same table and leaves the
caller's buffer unwritten. -/
theorem C7_size_check_only_in_faiss_lookup (e : Engine) (db : Db) (n : String) (r : Row)
    (hfirst : db.rows.find? (fun x => x.Name == n) = some r)
    (hbad : r.FeatureVector.length ≠ faiss_object.dimension * faiss_object.sizeof_float)
    (hacc : e.accepts) (hmalloc : e.mallocFails = false) :
    sqlite_object.get_feature_by_name e db n
      = { ret := 0, feature := some r.FeatureVector,
          feature_size := some r.FeatureVector.length,
          version := some (toInt32 r.FeatureVersion) } ∧
    faiss_object.get_feature_by_name e db n = { ret := -1, feature := none } := by
  have hs : e.stepFailsAt ≠ some 0 := by rw [hacc.2]; simp
  rw [sqlite_get_eq e db n hacc.1 hs, faiss_get_eq e db n hacc.1 hs, hfirst]
  simp [hmalloc, hbad]

theorem C7_size_check_only_in_faiss_lookup_witness :
    sqlite_object.get_feature_by_name Engine.healthy
        { rows := [{ ID := 1, Name := "John", Age := 30, Gender := "Male",
                     Hairstyle := "Short", FeatureVersion := 1,
                     FeatureVector := [1, 2, 3] }], seq := 1 } "John"
      = { ret := 0, feature := some [1, 2, 3],
          feature_size := some ([1, 2, 3] : Blob).length, version := some 1 } ∧
    faiss_object.get_feature_by_name Engine.healthy
        { rows := [{ ID := 1, Name := "John", Age := 30, Gender := "Male",
                     Hairstyle := "Short", FeatureVersion := 1,
                     FeatureVector := [1, 2, 3] }], seq := 1 } "John"
      = { ret := -1, feature := none } :=
  C7_size_check_only_in_faiss_lookup Engine.healthy
    { rows := [{ ID := 1, Name := "John", Age := 30, Gender := "Male",
                 Hairstyle := "Short", FeatureVersion := 1,
                 FeatureVector := [1, 2, 3] }], seq := 1 } "John"
    { ID := 1, Name := "John", Age := 30, Gender := "Male", Hairstyle := "Short",
      FeatureVersion := 1, FeatureVector := [1, 2, 3] }
    (by decide) (by decide) (by decide) rfl

/-- C8, counterexample. Two rows are named "John"; the earlier one holds a
1-byte blob.  The lookup of faiss_object.cpp does not succeed: it returns -1
(and does not go on to the later row).  And on a table whose only row named
"John" stores the version 4294967297, the lookup of sqlite_object.c returns
the version 1, not the stored FeatureVersion. -/
theorem C8_faiss_lookup_fails_on_short_first_row :
    (faiss_object.get_feature_by_name Engine.healthy
        { rows := [{ ID := 1, Name := "John", Age := 30, Gender := "Male",
                     Hairstyle := "Short", FeatureVersion := 1, FeatureVector := [7] },
                   { ID := 2, Name := "John", Age := 31, Gender := "Male",
                     Hairstyle := "Long", FeatureVersion := 2, FeatureVector := [8, 9] }],
          seq := 2 } "John")
      = { ret := -1, feature := none } ∧
    (sqlite_object.get_feature_by_name Engine.healthy
        { rows := [{ ID := 1, Name := "John", Age := 30, Gender := "Male",
                     Hairstyle := "Short", FeatureVersion := 4294967297,
                     FeatureVector := [8, 9] }],
          seq := 1 } "John").version = some 1 ∧
    (1 : Int) ≠ 4294967297 := by
  decide

theorem first_match_min_id (db : Db) (n : String) (r : Row) (hsorted : db.sorted)
    (hfirst : db.rows.find? (fun x => x.Name == n) = some r) :
    ∀ x ∈ db.rows, x.Name = n → r.ID ≤ x.ID := by
  unfold Db.sorted at hsorted
  generalize db.rows = l at hsorted hfirst
  induction l with
  | nil => simp at hfirst
  | cons a as ih =>
    rw [List.pairwise_cons] at hsorted
    by_cases ha : a.Name = n
    · have : r = a := by simpa [List.find?_cons, ha] using hfirst.symm
      subst this
      intro x hx _
      rcases List.mem_cons.1 hx with rfl | hx
      · exact le_refl _
      · exact le_of_lt (hsorted.1 x hx)
    · have hfirst' : as.find? (fun x => x.Name == n) = some r := by
        simpa [List.find?_cons, ha] using hfirst
      intro x hx hxn
      rcases List.mem_cons.1 hx with rfl | hx
      · exact absurd hxn ha
      · exact ih hsorted.2 hfirst' x hx hxn

/-- C8, amended. First match wins: when `r` is the first row named `n` in
the table's row order, the lookup of sqlite_object.c (engine accepting,
allocation succeeding) returns 0 with the FeatureVector of `r` and the
FeatureVersion of `r` read as a 32-bit `int`, which is the stored version
itself whenever that is a C `int`; the lookup of faiss_object.cpp returns 0
with the FeatureVector of `r` when that blob is 512 bytes long and -1
otherwise.  Either way only `r` decides, however many later rows share the
name, and in a table in rowid order `r` has the smallest ID among the rows
named `n`. -/
theorem C8_first_match_wins (e : Engine) (db : Db) (n : String) (r : Row)
    (hfirst : db.rows.find? (fun x => x.Name == n) = some r)
    (hsorted : db.sorted) (hacc : e.accepts) (hmalloc : e.mallocFails = false) :
    sqlite_object.get_feature_by_name e db n
      = { ret := 0, feature := some r.FeatureVector,
          feature_size := some r.FeatureVector.length,
          version := some (toInt32 r.FeatureVersion) } ∧
    (isCInt r.FeatureVersion →
      (sqlite_object.get_feature_by_name e db n).version = some r.FeatureVersion) ∧
    faiss_object.get_feature_by_name e db n
      = (if r.FeatureVector.length = faiss_object.dimension * faiss_object.sizeof_float
         then { ret := 0, feature := some r.FeatureVector }
         else { ret := -1, feature := none }) ∧
    r ∈ db.rows ∧ r.Name = n ∧ (∀ x ∈ db.rows, x.Name = n → r.ID ≤ x.ID) := by
  have hs : e.stepFailsAt ≠ some 0 := by rw [hacc.2]; simp
  rw [sqlite_get_eq e db n hacc.1 hs, faiss_get_eq e db n hacc.1 hs, hfirst]
  refine ⟨by simp [hmalloc], ?_, ?_, List.mem_of_find?_eq_some hfirst, ?_,
    first_match_min_id db n r hsorted hfirst⟩
  · intro hv
    simp [hmalloc, toInt32_of_isCInt _ hv]
  · by_cases h : r.FeatureVector.length
        = faiss_object.dimension * faiss_object.sizeof_float <;> simp [h]
  · simpa using List.find?_some hfirst

theorem C8_first_match_wins_witness :
    sqlite_object.get_feature_by_name Engine.healthy
        { rows := [{ ID := 1, Name := "Ann", Age := 30, Gender := "Female",
                     Hairstyle := "Short", FeatureVersion := 1, FeatureVector := [7] },
                   { ID := 2, Name := "John", Age := 31, Gender := "Male",
                     Hairstyle := "Long", FeatureVersion := 2, FeatureVector := [8, 9] },
                   { ID := 3, Name := "John", Age := 32, Gender := "Male",
                     Hairstyle := "Long", FeatureVersion := 3, FeatureVector := [5] }],
          seq := 3 } "John"
      = { ret := 0, feature := some [8, 9], feature_size := some ([8, 9] : Blob).length,
          version := some 2 } :=
  (C8_first_match_wins Engine.healthy
    { rows := [{ ID := 1, Name := "Ann", Age := 30, Gender := "Female",
                 Hairstyle := "Short", FeatureVersion := 1, FeatureVector := [7] },
               { ID := 2, Name := "John", Age := 31, Gender := "Male",
                 Hairstyle := "Long", FeatureVersion := 2, FeatureVector := [8, 9] },
               { ID := 3, Name := "John", Age := 32, Gender := "Male",
                 Hairstyle := "Long", FeatureVersion := 3, FeatureVector := [5] }],
      seq := 3 } "John"
    { ID := 2, Name := "John", Age := 31, Gender := "Male", Hairstyle := "Long",
      FeatureVersion := 2, FeatureVector := [8, 9] }
    (by decide) (by simp [Db.sorted]) (by decide) rfl).1

/-! ## C10: delete removes exactly the matching rows -/

theorem delete_by_name_eq (e : Engine) (db : Db) (n : String) (hacc : e.accepts) :
    sqlite_object.delete_face_by_name e db n
      = { db with rows := db.rows.filter (fun r => !(r.Name == n)) } := by
  simp [sqlite_object.delete_face_by_name, sqlite3_prepare_v2, step_delete, hacc.1, hacc.2]

theorem delete_by_id_eq (e : Engine) (db : Db) (id : Int) (hacc : e.accepts) :
    sqlite_object.delete_face_by_id e db id
      = { db with rows := db.rows.filter (fun r => !(r.ID == id)) } := by
  simp [sqlite_object.delete_face_by_id, sqlite3_prepare_v2, step_delete, hacc.1, hacc.2]

/-- C10. On an accepting engine `delete_face_by_name` leaves exactly the
rows whose Name is not `n` and `delete_face_by_id` exactly the rows whose ID
is not `id`: a row is in the table afterwards iff it was there and does not
match, the rows left are a sublist of the original (same fields, same
order), and a call that matches no row leaves the database as it was. -/
theorem C10_delete_removes_matching (e : Engine) (db : Db) (n : String) (id : Int)
    (hacc : e.accepts) :
    ((sqlite_object.delete_face_by_name e db n).rows
        = db.rows.filter (fun r => decide (r.Name ≠ n)) ∧
      (∀ r, r ∈ (sqlite_object.delete_face_by_name e db n).rows
        ↔ r ∈ db.rows ∧ r.Name ≠ n) ∧
      (sqlite_object.delete_face_by_name e db n).rows.Sublist db.rows ∧
      ((∀ r ∈ db.rows, r.Name ≠ n) → sqlite_object.delete_face_by_name e db n = db)) ∧
    ((sqlite_object.delete_face_by_id e db id).rows
        = db.rows.filter (fun r => decide (r.ID ≠ id)) ∧
      (∀ r, r ∈ (sqlite_object.delete_face_by_id e db id).rows
        ↔ r ∈ db.rows ∧ r.ID ≠ id) ∧
      (sqlite_object.delete_face_by_id e db id).rows.Sublist db.rows ∧
      ((∀ r ∈ db.rows, r.ID ≠ id) → sqlite_object.delete_face_by_id e db id = db)) := by
  rw [delete_by_name_eq e db n hacc, delete_by_id_eq e db id hacc]
  refine ⟨⟨?_, ?_, List.filter_sublist _, ?_⟩, ⟨?_, ?_, List.filter_sublist _, ?_⟩⟩
  · apply List.filter_congr; intro r _; rw [Bool.eq_iff_iff]; simp
  · intro r; simp [List.mem_filter]
  · intro h
    have : db.rows.filter (fun r => !(r.Name == n)) = db.rows := by
      rw [List.filter_eq_self]; intro r hr; simpa using h r hr
    simp [this]
  · apply List.filter_congr; intro r _; rw [Bool.eq_iff_iff]; simp
  · intro r; simp [List.mem_filter]
  · intro h
    have : db.rows.filter (fun r => !(r.ID == id)) = db.rows := by
      rw [List.filter_eq_self]; intro r hr; simpa using h r hr
    simp [this]

theorem C10_delete_removes_matching_witness :
    (sqlite_object.delete_face_by_name Engine.healthy
        { rows := [{ ID := 1, Name := "Ann", Age := 30, Gender := "Female",
                     Hairstyle := "Short", FeatureVersion := 1, FeatureVector := [7] },
                   { ID := 2, Name := "John", Age := 31, Gender := "Male",
                     Hairstyle := "Long", FeatureVersion := 2, FeatureVector := [8, 9] },
                   { ID := 3, Name := "Ann", Age := 32, Gender := "Female",
                     Hairstyle := "Long", FeatureVersion := 3, FeatureVector := [5] }],
          seq := 3 } "Ann").rows
      = List.filter (fun r => decide (r.Name ≠ "Ann"))
          [{ ID := 1, Name := "Ann", Age := 30, Gender := "Female",
             Hairstyle := "Short", FeatureVersion := 1, FeatureVector := [7] },
           { ID := 2, Name := "John", Age := 31, Gender := "Male",
             Hairstyle := "Long", FeatureVersion := 2, FeatureVector := [8, 9] },
           { ID := 3, Name := "Ann", Age := 32, Gender := "Female",
             Hairstyle := "Long", FeatureVersion := 3, FeatureVector := [5] }] :=
  (C10_delete_removes_matching Engine.healthy
    { rows := [{ ID := 1, Name := "Ann", Age := 30, Gender := "Female",
                 Hairstyle := "Short", FeatureVersion := 1, FeatureVector := [7] },
               { ID := 2, Name := "John", Age := 31, Gender := "Male",
                 Hairstyle := "Long", FeatureVersion := 2, FeatureVector := [8, 9] },
               { ID := 3, Name := "Ann", Age := 32, Gender := "Female",
                 Hairstyle := "Long", FeatureVersion := 3, FeatureVector := [5] }],
      seq := 3 } "Ann" 2 (by decide)).1.1

/-! ## C9: the count and the live records -/

theorem maxRowid_nonneg (l : List Row) : 0 ≤ maxRowid l := by
  induction l with
  | nil => simp [maxRowid]
  | cons r rs ih => simp only [maxRowid]; exact le_trans ih (le_max_right _ _)

theorem maxRowid_append_singleton (l : List Row) (x : Row) :
    maxRowid (l ++ [x]) = max (maxRowid l) (max x.ID 0) := by
  induction l with
  | nil => simp [maxRowid]
  | cons r rs ih =>
    rw [List.cons_append]
    simp only [maxRowid]
    rw [ih, max_assoc]

theorem maxRowid_filter_le (p : Row → Bool) (l : List Row) :
    maxRowid (l.filter p) ≤ maxRowid l := by
  induction l with
  | nil => simp
  | cons r rs ih =>
    by_cases hp : p r = true
    · simp only [List.filter_cons, hp, if_true, maxRowid]
      exact max_le_max (le_refl _) ih
    · simp only [List.filter_cons, hp, maxRowid]
      exact le_trans ih (le_max_right _ _)

theorem survives_cons (id : Int) (n : String) (op : Op) (later : List Op) :
    survives id n (op :: later) = (!op.deletes id n && survives id n later) := by
  simp [survives]

/-- Number of rows after a call sequence: the rows present before that no
call deletes, plus the records the sequence inserts and does not delete. -/
theorem rows_length_runOps (ops : List Op) :
    ∀ db : Db, maxRowid db.rows ≤ db.seq →
      (runOps db ops).rows.length
        = db.rows.countP (fun r => survives r.ID r.Name ops) + liveCount (db.seq + 1) ops := by
  induction ops with
  | nil => intro db _; simp [runOps, survives, liveCount]
  | cons op later ih =>
    intro db hdb
    have hnext : nextRowid db = db.seq + 1 := by simp [nextRowid, max_eq_left hdb]
    cases op with
    | add n a g h v f s =>
      have hrun : runOps db (Op.add n a g h v f s :: later)
          = runOps
              { rows := db.rows ++
                  [{ ID := db.seq + 1, Name := n, Age := a, Gender := g, Hairstyle := h,
                     FeatureVersion := v, FeatureVector := f.take s }],
                seq := db.seq + 1 } later := by
        simp only [runOps, List.foldl_cons, Op.run]
        rw [add_face_rows Engine.healthy db n a g h v f s rfl (by decide), hnext]
      rw [hrun, ih]
      · simp only [List.countP_append, List.countP_cons, List.countP_nil, liveCount,
          survives_cons, Op.deletes, Bool.not_false, Bool.true_and]
        omega
      · have h0 := maxRowid_nonneg db.rows
        simp only [maxRowid_append_singleton]
        have : (0 : Int) ≤ db.seq := le_trans h0 hdb
        simp only [max_le_iff]
        omega
    | delById i =>
      have hrun : runOps db (Op.delById i :: later)
          = runOps { db with rows := db.rows.filter (fun r => !(r.ID == i)) } later := by
        simp only [runOps, List.foldl_cons, Op.run]
        rw [delete_by_id_eq Engine.healthy db i (by decide)]
      rw [hrun, ih { db with rows := db.rows.filter (fun r => !(r.ID == i)) }
        (le_trans (maxRowid_filter_le _ _) hdb)]
      simp only [List.countP_filter, liveCount, survives_cons, Op.deletes]
      congr 1
      apply List.countP_congr
      intro r _
      simp only [Bool.and_eq_true, Bool.not_eq_true', beq_eq_false_iff_ne, ne_eq]
      constructor
      · rintro ⟨h1, h2⟩; exact ⟨fun h => h2 h.symm, h1⟩
      · rintro ⟨h1, h2⟩; exact ⟨h2, fun h => h1 h.symm⟩
    | delByName m =>
      have hrun : runOps db (Op.delByName m :: later)
          = runOps { db with rows := db.rows.filter (fun r => !(r.Name == m)) } later := by
        simp only [runOps, List.foldl_cons, Op.run]
        rw [delete_by_name_eq Engine.healthy db m (by decide)]
      rw [hrun, ih { db with rows := db.rows.filter (fun r => !(r.Name == m)) }
        (le_trans (maxRowid_filter_le _ _) hdb)]
      simp only [List.countP_filter, liveCount, survives_cons, Op.deletes]
      congr 1
      apply List.countP_congr
      intro r _
      simp only [Bool.and_eq_true, Bool.not_eq_true', beq_eq_false_iff_ne, ne_eq]
      constructor
      · rintro ⟨h1, h2⟩; exact ⟨fun h => h2 h.symm, h1⟩
      · rintro ⟨h1, h2⟩; exact ⟨h2, fun h => h1 h.symm⟩

theorem rows_length_from_empty (ops : List Op) :
    (runOps Db.empty ops).rows.length = liveCount 1 ops := by
  have h := rows_length_runOps ops Db.empty (by simp [Db.empty, maxRowid])
  simpa [Db.empty] using h

theorem toInt32_of_small (k : Nat) (h : k < 2147483648) : toInt32 (k : Int) = k := by
  unfold toInt32
  omega

theorem liveCount_replicate_add (k : Nat) (n g h : String) (a v : Int) (f : Blob) (s : Nat) :
    ∀ next : Int, liveCount next (List.replicate k (Op.add n a g h v f s)) = k := by
  induction k with
  | zero => intro next; simp [liveCount]
  | succ k ih =>
    intro next
    have hs : survives next n (List.replicate k (Op.add n a g h v f s)) = true := by
      simp only [survives, List.all_eq_true]
      intro op hop
      rw [List.eq_of_mem_replicate hop]
      rfl
    rw [List.replicate_succ, liveCount, ih, hs]
    simp [Nat.add_comm]

theorem face_count_of_accepts (e : Engine) (db : Db) (hacc : e.accepts) :
    sqlite_object.sqlite_face_count e db = toInt32 db.rows.length := by
  simp [sqlite_object.sqlite_face_count, sqlite3_prepare_v2, hacc.1, hacc.2]

/-- C9, counterexample. After 2^31 accepted inserts into the empty table
2^31 records are live, and `sqlite_face_count`, which narrows the engine's
64-bit count to `int`, returns -2^31. -/
theorem C9_count_wraps_at_two_pow_31 :
    sqlite_object.sqlite_face_count Engine.healthy
        (runOps Db.empty (List.replicate 2147483648 (Op.add "John" 30 "Male" "Short" 1 [] 0)))
      = -2147483648 ∧
    liveCount 1 (List.replicate 2147483648 (Op.add "John" 30 "Male" "Short" 1 [] 0))
      = 2147483648 := by
  have hacc : Engine.healthy.accepts := ⟨rfl, rfl⟩
  rw [face_count_of_accepts Engine.healthy _ hacc, rows_length_from_empty,
    liveCount_replicate_add]
  refine ⟨?_, rfl⟩
  unfold toInt32
  norm_num

/-- C9, amended. For every finite sequence of `sqlite_add_face`,
`delete_face_by_id` and `delete_face_by_name` calls applied to the empty
table on an accepting engine, after each step (that is, after every prefix
`ops.take k`) at which fewer than 2^31 records are live, `sqlite_face_count`
returns exactly the number of records inserted and not since deleted. -/
theorem C9_count_tracks_live_records (e : Engine) (ops : List Op) (k : Nat)
    (hacc : e.accepts) (hsmall : liveCount 1 (ops.take k) < 2147483648) :
    sqlite_object.sqlite_face_count e (runOps Db.empty (ops.take k))
      = (liveCount 1 (ops.take k) : Int) := by
  rw [face_count_of_accepts e _ hacc, rows_length_from_empty]
  exact toInt32_of_small _ hsmall

theorem C9_count_tracks_live_records_witness :
    sqlite_object.sqlite_face_count Engine.healthy
        (runOps Db.empty
          (List.take 5
            [Op.add "John" 30 "Male" "Short" 1 [1, 2] 2,
             Op.add "Ann" 31 "Female" "Long" 1 [3, 4] 2,
             Op.add "John" 32 "Male" "Long" 2 [5] 1,
             Op.delByName "John",
             Op.delById 7,
             Op.delById 2]))
      = ((liveCount 1
          (List.take 5
            [Op.add "John" 30 "Male" "Short" 1 [1, 2] 2,
             Op.add "Ann" 31 "Female" "Long" 1 [3, 4] 2,
             Op.add "John" 32 "Male" "Long" 2 [5] 1,
             Op.delByName "John",
             Op.delById 7,
             Op.delById 2]) : Nat) : Int) :=
  C9_count_tracks_live_records Engine.healthy _ 5 (by decide) (by decide)

/-! ## The index build -/

theorem add_full_vector (index : faiss_object.IndexFlatL2) (x : Blob)
    (hd : index.d = faiss_object.dimension)
    (hx : x.length = faiss_object.dimension * faiss_object.sizeof_float) :
    index.add x = { index with xb := index.xb ++ [x] } := by
  unfold faiss_object.IndexFlatL2.add
  rw [hd, ← hx, List.take_length]

/-- The loop on an engine whose steps do not fail: it walks over a run of
well-formed rows and appends the embedding of each. -/
theorem build_loop_good (e : Engine) (hs : e.stepFailsAt = none) (pre rest : List Row) :
    ∀ (i : Nat) (index : faiss_object.IndexFlatL2),
      index.d = faiss_object.dimension →
      (∀ r ∈ pre, r.FeatureVector.length
        = faiss_object.dimension * faiss_object.sizeof_float) →
      faiss_object.build_loop e (pre ++ rest) i index
        = faiss_object.build_loop e rest (i + pre.length)
            { index with xb := index.xb ++ pre.map (fun r => r.FeatureVector) } := by
  induction pre with
  | nil => intro i index _ _; simp
  | cons r rs ih =>
    intro i index hd hgood
    have hr := hgood r (List.mem_cons_self _ _)
    rw [List.cons_append, faiss_object.build_loop, if_neg (by rw [hs]; simp),
      if_neg (by simp [hr]), add_full_vector index _ hd hr,
      ih (i + 1) { index with xb := index.xb ++ [r.FeatureVector] } hd
        (fun x hx => hgood x (List.mem_cons_of_mem _ hx))]
    simp [Nat.add_assoc, Nat.add_comm 1]

theorem build_all_good (e : Engine) (db : Db) (index : faiss_object.IndexFlatL2)
    (hacc : e.accepts) (hd : index.d = faiss_object.dimension)
    (hgood : ∀ r ∈ db.rows, r.FeatureVector.length
      = faiss_object.dimension * faiss_object.sizeof_float) :
    faiss_object.build_faiss_index_from_sqlite e db index
      = { ret := 0,
          index := { index with xb := index.xb ++ db.rows.map (fun r => r.FeatureVector) },
          db_closed := false } := by
  unfold faiss_object.build_faiss_index_from_sqlite
  rw [prepare_ok_of_accepts e hacc]
  have h := build_loop_good e hacc.2 db.rows [] 0 index hd hgood
  rw [List.append_nil] at h
  simp [h, faiss_object.build_loop]

theorem constVec_length (b : Byte) :
    (faiss_object.constVec b).length
      = faiss_object.dimension * faiss_object.sizeof_float :=
  List.length_replicate _ _

theorem constVec_ne : faiss_object.constVec 0 ≠ faiss_object.constVec 1 := by
  intro h
  have h0 := congrArg List.head? h
  rw [faiss_object.constVec, faiss_object.constVec, List.head?_replicate,
    List.head?_replicate] at h0
  revert h0
  decide

theorem build_bad_row (e : Engine) (db : Db) (index : faiss_object.IndexFlatL2)
    (pre post : List Row) (bad : Row)
    (hacc : e.accepts) (hd : index.d = faiss_object.dimension)
    (hrows : db.rows = pre ++ bad :: post)
    (hpre : ∀ r ∈ pre, r.FeatureVector.length
      = faiss_object.dimension * faiss_object.sizeof_float)
    (hbad : bad.FeatureVector.length
      ≠ faiss_object.dimension * faiss_object.sizeof_float) :
    faiss_object.build_faiss_index_from_sqlite e db index
      = { ret := 1,
          index := { index with xb := index.xb ++ pre.map (fun r => r.FeatureVector) },
          db_closed := true } := by
  unfold faiss_object.build_faiss_index_from_sqlite
  rw [prepare_ok_of_accepts e hacc, if_neg (by simp), hrows,
    build_loop_good e hacc.2 pre (bad :: post) 0 index hd hpre, faiss_object.build_loop,
    if_neg (by rw [hacc.2]; simp), if_pos hbad]

/-! ## C3: a successful build appends to the index -/

/-- C3, counterexample. The index handed in already holds one vector (512
bytes of 0); the table has N = 1 row whose blob is 512 bytes of 1.  The
build returns 0 and the index then holds 2 slots, slot 0 still the old
vector and not the embedding of row 0. -/
theorem C3_prior_content_is_kept :
    faiss_object.build_faiss_index_from_sqlite Engine.healthy
        { rows := [{ ID := 1, Name := "John", Age := 30, Gender := "Male",
                     Hairstyle := "Short", FeatureVersion := 1,
                     FeatureVector := faiss_object.constVec 1 }], seq := 1 }
        { d := 128, xb := [faiss_object.constVec 0] }
      = { ret := 0,
          index := { d := 128, xb := [faiss_object.constVec 0, faiss_object.constVec 1] },
          db_closed := false } ∧
    faiss_object.IndexFlatL2.ntotal
        { d := 128, xb := [faiss_object.constVec 0, faiss_object.constVec 1] } ≠ 1 ∧
    faiss_object.constVec 0 ≠ faiss_object.constVec 1 := by
  refine ⟨?_, by simp [faiss_object.IndexFlatL2.ntotal], constVec_ne⟩
  rw [build_all_good Engine.healthy _ _ ⟨rfl, rfl⟩ rfl
    (by intro r hr; rw [List.mem_singleton.1 hr]; exact constVec_length 1)]
  rfl

/-- C3, amended. For every table of N rows whose blobs all have length
D*4, every index of dimension D handed in and an accepting engine, the build
returns 0 and leaves the index holding its prior slots, unchanged and in
place, followed by N new slots: with M the prior `ntotal`, the index has
M + N slots and slot M + i is the embedding of the i-th row in scan order.
The prior content is extended, not replaced; the index holds exactly the N
rows when it was empty before the call. -/
theorem C3_build_appends_rows (e : Engine) (db : Db) (index : faiss_object.IndexFlatL2)
    (hacc : e.accepts) (hd : index.d = faiss_object.dimension)
    (hgood : ∀ r ∈ db.rows, r.FeatureVector.length
      = faiss_object.dimension * faiss_object.sizeof_float) :
    (faiss_object.build_faiss_index_from_sqlite e db index).ret = 0 ∧
    (faiss_object.build_faiss_index_from_sqlite e db index).index.xb
      = index.xb ++ db.rows.map (fun r => r.FeatureVector) ∧
    (faiss_object.build_faiss_index_from_sqlite e db index).index.ntotal
      = index.ntotal + db.rows.length ∧
    (∀ i, i < index.ntotal →
      (faiss_object.build_faiss_index_from_sqlite e db index).index.xb[i]?
        = index.xb[i]?) ∧
    (∀ i, (faiss_object.build_faiss_index_from_sqlite e db index).index.xb[index.ntotal + i]?
        = (db.rows[i]?).map (fun r => r.FeatureVector)) ∧
    (index.xb = [] →
      (faiss_object.build_faiss_index_from_sqlite e db index).index.xb
        = db.rows.map (fun r => r.FeatureVector)) := by
  rw [build_all_good e db index hacc hd hgood]
  refine ⟨rfl, rfl, ?_, ?_, ?_, ?_⟩
  · simp [faiss_object.IndexFlatL2.ntotal]
  · intro i hi
    simp only [faiss_object.IndexFlatL2.ntotal] at hi
    simp [List.getElem?_append_left hi]
  · intro i
    simp [faiss_object.IndexFlatL2.ntotal, List.getElem?_append_right]
  · intro h; simp [h]

theorem C3_build_appends_rows_witness :
    (faiss_object.build_faiss_index_from_sqlite Engine.healthy
        { rows := [{ ID := 1, Name := "John", Age := 30, Gender := "Male",
                     Hairstyle := "Short", FeatureVersion := 1,
                     FeatureVector := faiss_object.constVec 1 },
                   { ID := 2, Name := "Ann", Age := 31, Gender := "Female",
                     Hairstyle := "Long", FeatureVersion := 1,
                     FeatureVector := faiss_object.constVec 2 }], seq := 2 }
        (faiss_object.IndexFlatL2.new faiss_object.dimension)).index.xb
      = [faiss_object.constVec 1, faiss_object.constVec 2] :=
  (C3_build_appends_rows Engine.healthy
    { rows := [{ ID := 1, Name := "John", Age := 30, Gender := "Male",
                 Hairstyle := "Short", FeatureVersion := 1,
                 FeatureVector := faiss_object.constVec 1 },
               { ID := 2, Name := "Ann", Age := 31, Gender := "Female",
                 Hairstyle := "Long", FeatureVersion := 1,
                 FeatureVector := faiss_object.constVec 2 }], seq := 2 }
    (faiss_object.IndexFlatL2.new faiss_object.dimension) ⟨rfl, rfl⟩ rfl
    (by
      intro r hr
      rcases List.mem_cons.1 hr with h | h
      · rw [h]; exact constVec_length 1
      · rw [List.mem_singleton.1 h]; exact constVec_length 2)).2.1

/-! ## C4: a failing build keeps what it had added -/

/-- C4, counterexample. The table holds a well-formed row followed by a row
with a 3-byte blob, the index is empty.  The build returns 1 and the index
holds one slot, the embedding of the first row: `ntotal` went from 0 to 1. -/
theorem C4_failed_build_leaves_partial_index :
    faiss_object.build_faiss_index_from_sqlite Engine.healthy
        { rows := [{ ID := 1, Name := "John", Age := 30, Gender := "Male",
                     Hairstyle := "Short", FeatureVersion := 1,
                     FeatureVector := faiss_object.constVec 1 },
                   { ID := 2, Name := "Ann", Age := 31, Gender := "Female",
                     Hairstyle := "Long", FeatureVersion := 1,
                     FeatureVector := [1, 2, 3] }], seq := 2 }
        (faiss_object.IndexFlatL2.new faiss_object.dimension)
      = { ret := 1,
          index := { d := 128, xb := [faiss_object.constVec 1] },
          db_closed := true } ∧
    (faiss_object.IndexFlatL2.new faiss_object.dimension).ntotal = 0 ∧
    faiss_object.IndexFlatL2.ntotal { d := 128, xb := [faiss_object.constVec 1] } = 1 := by
  refine ⟨?_, rfl, rfl⟩
  rw [build_bad_row Engine.healthy _ (faiss_object.IndexFlatL2.new faiss_object.dimension)
    [{ ID := 1, Name := "John", Age := 30, Gender := "Male",
       Hairstyle := "Short", FeatureVersion := 1,
       FeatureVector := faiss_object.constVec 1 }]
    []
    { ID := 2, Name := "Ann", Age := 31, Gender := "Female",
      Hairstyle := "Long", FeatureVersion := 1, FeatureVector := [1, 2, 3] }
    ⟨rfl, rfl⟩ rfl rfl
    (by intro r hr; rw [List.mem_singleton.1 hr]; exact constVec_length 1)
    (by decide)]
  rfl

/-- C4, amended. When the scan meets a row whose blob length is not D*4
(`bad`, after the well-formed rows `pre`), the build on an accepting engine
returns the failure code 1 and closes the handle; the index is not rolled
back: it holds its prior slots, unchanged and in place, followed by the
embeddings of the rows scanned before the offending one, so `ntotal` has
grown by the number of those rows.  The index is what it was before the
call when the offending row is the first one scanned. -/
theorem C4_failed_build_keeps_scanned_rows (e : Engine) (db : Db)
    (index : faiss_object.IndexFlatL2) (pre post : List Row) (bad : Row)
    (hacc : e.accepts) (hd : index.d = faiss_object.dimension)
    (hrows : db.rows = pre ++ bad :: post)
    (hpre : ∀ r ∈ pre, r.FeatureVector.length
      = faiss_object.dimension * faiss_object.sizeof_float)
    (hbad : bad.FeatureVector.length
      ≠ faiss_object.dimension * faiss_object.sizeof_float) :
    faiss_object.build_faiss_index_from_sqlite e db index
      = { ret := 1,
          index := { index with xb := index.xb ++ pre.map (fun r => r.FeatureVector) },
          db_closed := true } ∧
    (faiss_object.build_faiss_index_from_sqlite e db index).index.ntotal
      = index.ntotal + pre.length ∧
    (∀ i, i < index.ntotal →
      (faiss_object.build_faiss_index_from_sqlite e db index).index.xb[i]?
        = index.xb[i]?) ∧
    (pre = [] → (faiss_object.build_faiss_index_from_sqlite e db index).index = index) := by
  rw [build_bad_row e db index pre post bad hacc hd hrows hpre hbad]
  refine ⟨rfl, ?_, ?_, ?_⟩
  · simp [faiss_object.IndexFlatL2.ntotal]
  · intro i hi
    simp only [faiss_object.IndexFlatL2.ntotal] at hi
    simp [List.getElem?_append_left hi]
  · intro h; simp [h]

theorem C4_failed_build_keeps_scanned_rows_witness :
    (faiss_object.build_faiss_index_from_sqlite Engine.healthy
        { rows := [{ ID := 1, Name := "John", Age := 30, Gender := "Male",
                     Hairstyle := "Short", FeatureVersion := 1,
                     FeatureVector := faiss_object.constVec 1 },
                   { ID := 2, Name := "Ann", Age := 31, Gender := "Female",
                     Hairstyle := "Long", FeatureVersion := 1,
                     FeatureVector := [1, 2, 3] }], seq := 2 }
        (faiss_object.IndexFlatL2.new faiss_object.dimension)).index.ntotal
      = (faiss_object.IndexFlatL2.new faiss_object.dimension).ntotal +
        [({ ID := 1, Name := "John", Age := 30, Gender := "Male",
            Hairstyle := "Short", FeatureVersion := 1,
            FeatureVector := faiss_object.constVec 1 } : Row)].length :=
  (C4_failed_build_keeps_scanned_rows Engine.healthy
    { rows := [{ ID := 1, Name := "John", Age := 30, Gender := "Male",
                 Hairstyle := "Short", FeatureVersion := 1,
                 FeatureVector := faiss_object.constVec 1 },
               { ID := 2, Name := "Ann", Age := 31, Gender := "Female",
                 Hairstyle := "Long", FeatureVersion := 1,
                 FeatureVector := [1, 2, 3] }], seq := 2 }
    (faiss_object.IndexFlatL2.new faiss_object.dimension)
    [{ ID := 1, Name := "John", Age := 30, Gender := "Male",
       Hairstyle := "Short", FeatureVersion := 1,
       FeatureVector := faiss_object.constVec 1 }]
    []
    { ID := 2, Name := "Ann", Age := 31, Gender := "Female",
      Hairstyle := "Long", FeatureVersion := 1, FeatureVector := [1, 2, 3] }
    ⟨rfl, rfl⟩ rfl rfl
    (by intro r hr; rw [List.mem_singleton.1 hr]; exact constVec_length 1)
    (by decide)).2.1

/-! ## C2: the search returns the min(k, N) nearest slots in order -/

instance candLe_isTotal {F : Type} [LinearOrder F] :
    IsTotal (F × Nat) faiss_object.candLe where
  total a b := by
    unfold faiss_object.candLe
    rcases lt_trichotomy a.1 b.1 with h | h | h
    · exact Or.inl (Or.inl h)
    · rcases le_total a.2 b.2 with h2 | h2
      · exact Or.inl (Or.inr ⟨h, h2⟩)
      · exact Or.inr (Or.inr ⟨h.symm, h2⟩)
    · exact Or.inr (Or.inl h)

instance candLe_isTrans {F : Type} [LinearOrder F] :
    IsTrans (F × Nat) faiss_object.candLe where
  trans a b c hab hbc := by
    unfold faiss_object.candLe at *
    rcases hab with h | ⟨h, h2⟩
    · rcases hbc with h' | ⟨h', _⟩
      · exact Or.inl (lt_trans h h')
      · exact Or.inl (h' ▸ h)
    · rcases hbc with h' | ⟨h', h2'⟩
      · exact Or.inl (h ▸ h')
      · exact Or.inr ⟨h.trans h', le_trans h2 h2'⟩

theorem candLe_fst_le {F : Type} [LinearOrder F] (a b : F × Nat)
    (h : faiss_object.candLe a b) : a.1 ≤ b.1 := by
  rcases h with h | ⟨h, _⟩
  · exact le_of_lt h
  · exact le_of_eq h

theorem candidates_length {F : Type} (dist : Blob → Blob → F)
    (index : faiss_object.IndexFlatL2) (q : Blob) :
    (faiss_object.candidates dist index q).length = index.ntotal := by
  simp [faiss_object.candidates, faiss_object.IndexFlatL2.ntotal]

theorem candidates_slots {F : Type} (dist : Blob → Blob → F)
    (index : faiss_object.IndexFlatL2) (q : Blob) :
    (faiss_object.candidates dist index q).map Prod.snd = List.range index.ntotal := by
  unfold faiss_object.candidates faiss_object.IndexFlatL2.ntotal
  rw [List.map_map, ← List.enum_map_fst]
  rfl

theorem mem_candidates {F : Type} (dist : Blob → Blob → F)
    (index : faiss_object.IndexFlatL2) (q : Blob) (c : F × Nat)
    (hc : c ∈ faiss_object.candidates dist index q) :
    ∃ v, index.xb[c.2]? = some v ∧ c.1 = dist q v := by
  unfold faiss_object.candidates at hc
  rcases List.mem_map.1 hc with ⟨p, hp, rfl⟩
  exact ⟨p.2, List.mem_enum_iff_getElem?.1 hp, rfl⟩

theorem candidate_of_slot {F : Type} (dist : Blob → Blob → F)
    (index : faiss_object.IndexFlatL2) (q : Blob) (j : Nat) (v : Blob)
    (hv : index.xb[j]? = some v) :
    (dist q v, j) ∈ faiss_object.candidates dist index q := by
  unfold faiss_object.candidates
  exact List.mem_map.2 ⟨(j, v), List.mem_enum_iff_getElem?.2 hv, rfl⟩

/-- The ranked candidates the search keeps: `min k ntotal` of them, in
non-decreasing distance, no slot twice, each a stored slot with the distance
of its vector to the query. -/
theorem nearest_spec {F : Type} [LinearOrder F] (dist : Blob → Blob → F)
    (index : faiss_object.IndexFlatL2) (q : Blob) (k : Nat) :
    (faiss_object.nearest dist index q k).length = min k index.ntotal ∧
    (faiss_object.nearest dist index q k).Pairwise (fun a b => a.1 ≤ b.1) ∧
    ((faiss_object.nearest dist index q k).map Prod.snd).Nodup ∧
    (∀ c ∈ faiss_object.nearest dist index q k,
      ∃ v, index.xb[c.2]? = some v ∧ c.1 = dist q v) := by
  have hperm := List.perm_insertionSort faiss_object.candLe
    (faiss_object.candidates dist index q)
  have hsorted := List.sorted_insertionSort faiss_object.candLe
    (faiss_object.candidates dist index q)
  have hsub : (faiss_object.nearest dist index q k).Sublist
      ((faiss_object.candidates dist index q).insertionSort faiss_object.candLe) :=
    List.take_sublist _ _
  refine ⟨?_, ?_, ?_, ?_⟩
  · unfold faiss_object.nearest
    rw [List.length_take, hperm.length_eq, candidates_length]
  · exact (List.Pairwise.sublist hsub hsorted).imp (fun {a b} h => candLe_fst_le a b h)
  · have hnd : (((faiss_object.candidates dist index q).insertionSort
        faiss_object.candLe).map Prod.snd).Nodup := by
      rw [(hperm.map Prod.snd).nodup_iff, candidates_slots]
      exact List.nodup_range _
    exact List.Nodup.sublist (hsub.map Prod.snd) hnd
  · intro c hc
    exact mem_candidates dist index q c (hperm.subset (hsub.subset hc))

/-- The candidates kept are the nearest: a stored slot that is not among
them is at least as far from the query as every one of them. -/
theorem nearest_optimal {F : Type} [LinearOrder F] (dist : Blob → Blob → F)
    (index : faiss_object.IndexFlatL2) (q : Blob) (k : Nat) (c : F × Nat)
    (hc : c ∈ faiss_object.nearest dist index q k) (j : Nat) (v : Blob)
    (hv : index.xb[j]? = some v)
    (hj : j ∉ (faiss_object.nearest dist index q k).map Prod.snd) :
    c.1 ≤ dist q v := by
  have hperm := List.perm_insertionSort faiss_object.candLe
    (faiss_object.candidates dist index q)
  have hsorted : List.Pairwise faiss_object.candLe
      ((faiss_object.candidates dist index q).insertionSort faiss_object.candLe) :=
    List.sorted_insertionSort faiss_object.candLe (faiss_object.candidates dist index q)
  rw [← List.take_append_drop k
    ((faiss_object.candidates dist index q).insertionSort faiss_object.candLe),
    List.pairwise_append] at hsorted
  have hmem : (dist q v, j) ∈
      ((faiss_object.candidates dist index q).insertionSort faiss_object.candLe) :=
    hperm.mem_iff.2 (candidate_of_slot dist index q j v hv)
  rw [← List.take_append_drop k
    ((faiss_object.candidates dist index q).insertionSort faiss_object.candLe),
    List.mem_append] at hmem
  rcases hmem with hin | hout
  · exact absurd (List.mem_map.2 ⟨(dist q v, j), hin, rfl⟩) hj
  · exact candLe_fst_le c (dist q v, j) (hsorted.2.2 c hc (dist q v, j) hout)

theorem range_filterMap_getElem? {α : Type} (l : List α) :
    ∀ k, (List.range k).filterMap (fun i => l[i]?) = l.take k := by
  intro k
  induction k with
  | zero => simp
  | succ k ih =>
    rw [List.range_succ, List.filterMap_append, ih, List.take_succ]
    cases h : l[k]? <;> simp [List.filterMap_cons, h]

/-- What `main` reads back is what the search returned. -/
theorem main_search_results (f32 : Blob → ℚ) (index : faiss_object.IndexFlatL2)
    (q : Blob) (k : Nat) :
    (faiss_object.main_search f32 index q k).filterMap (fun l => l.2)
      = index.search f32 q k := by
  have hlen : (index.search f32 q k).length ≤ k := by
    simp only [faiss_object.IndexFlatL2.search, List.length_map,
      (nearest_spec (faiss_object.L2sqr f32 index.d) index q k).1]
    exact min_le_left _ _
  simp only [faiss_object.main_search, List.filterMap_map, Function.comp_def]
  rw [range_filterMap_getElem?, List.take_of_length_le hlen]

theorem padVec_length (cs : Blob) :
    (faiss_object.padVec cs).length
      = faiss_object.dimension * faiss_object.sizeof_float := by
  simp [faiss_object.padVec, List.length_take]

theorem scenarioDb_well_formed :
    ∀ r ∈ faiss_object.scenarioDb.rows, r.FeatureVector.length
      = faiss_object.dimension * faiss_object.sizeof_float := by
  intro r hr
  simp only [faiss_object.scenarioDb, List.mem_cons, List.mem_singleton,
    List.not_mem_nil, or_false] at hr
  rcases hr with h | h | h <;> rw [h] <;> exact padVec_length _

/-- C2. For every table of N rows whose blobs all have length D*4, every
query and every k, after the index is built from the store (engine
accepting) the results the query path reads back are exactly min(k, N):
they are ordered non-decreasingly by squared L2 distance to the query, no
slot appears twice, each is a slot of the store with the squared L2
distance of that row's embedding, and every slot left out is at least as
far as every slot returned.  When k > N the N available results are
returned, fewer than k. -/
theorem C2_search_returns_min_k_N_nearest (f32 : Blob → ℚ) (e : Engine) (db : Db)
    (q : Blob) (k : Nat) (hacc : e.accepts)
    (hgood : ∀ r ∈ db.rows, r.FeatureVector.length
      = faiss_object.dimension * faiss_object.sizeof_float) :
    ((faiss_object.main_query f32 e db q k).filterMap (fun l => l.2)).length
      = min k db.rows.length ∧
    ((faiss_object.main_query f32 e db q k).filterMap (fun l => l.2)).Pairwise
      (fun a b => a.dis ≤ b.dis) ∧
    (((faiss_object.main_query f32 e db q k).filterMap (fun l => l.2)).map
      (fun h => h.label)).Nodup ∧
    (∀ h ∈ (faiss_object.main_query f32 e db q k).filterMap (fun l => l.2),
      ∃ r, db.rows[h.label]? = some r ∧
        h.dis = faiss_object.L2sqr f32 faiss_object.dimension q r.FeatureVector) ∧
    (∀ h ∈ (faiss_object.main_query f32 e db q k).filterMap (fun l => l.2),
      ∀ j r, db.rows[j]? = some r →
        j ∉ ((faiss_object.main_query f32 e db q k).filterMap (fun l => l.2)).map
          (fun h => h.label) →
        h.dis ≤ faiss_object.L2sqr f32 faiss_object.dimension q r.FeatureVector) ∧
    (db.rows.length < k →
      ((faiss_object.main_query f32 e db q k).filterMap (fun l => l.2)).length
        = db.rows.length ∧
      ((faiss_object.main_query f32 e db q k).filterMap (fun l => l.2)).length < k) := by
  unfold faiss_object.main_query
  rw [main_search_results, build_all_good e db _ hacc rfl hgood]
  have hxb : (faiss_object.IndexFlatL2.new faiss_object.dimension).xb
      ++ db.rows.map (fun r => r.FeatureVector) = db.rows.map (fun r => r.FeatureVector) := rfl
  have hd : (faiss_object.IndexFlatL2.new faiss_object.dimension).d
      = faiss_object.dimension := rfl
  simp only [hxb, hd, faiss_object.IndexFlatL2.search]
  generalize hix : ({ d := faiss_object.dimension,
                      xb := db.rows.map (fun r => r.FeatureVector) }
                    : faiss_object.IndexFlatL2) = index
  have hrow : ∀ j : Nat,
      index.xb[j]? = (db.rows[j]?).map (fun r : Row => r.FeatureVector) := by
    intro j; rw [← hix]; simp
  have hN : index.ntotal = db.rows.length := by
    rw [← hix]; simp [faiss_object.IndexFlatL2.ntotal]
  obtain ⟨hlen, hsorted, hnodup, hmem⟩ := nearest_spec
    (faiss_object.L2sqr f32 faiss_object.dimension) index q k
  rw [hN] at hlen
  have hlabels : ((faiss_object.nearest (faiss_object.L2sqr f32 faiss_object.dimension)
      index q k).map (fun c => ({ label := c.2, dis := c.1 } : faiss_object.Hit))).map
        (fun h => h.label)
      = (faiss_object.nearest (faiss_object.L2sqr f32 faiss_object.dimension)
          index q k).map Prod.snd := by
    rw [List.map_map]; rfl
  refine ⟨by rw [List.length_map, hlen], ?_, by rw [hlabels]; exact hnodup, ?_, ?_, ?_⟩
  · rw [List.pairwise_map]
    exact hsorted
  · intro h hh
    obtain ⟨c, hc, rfl⟩ := List.mem_map.1 hh
    obtain ⟨v, hv, hdis⟩ := hmem c hc
    rw [hrow, Option.map_eq_some'] at hv
    obtain ⟨r, hr, hrv⟩ := hv
    exact ⟨r, hr, by rw [hrv]; exact hdis⟩
  · intro h hh j r hr hj
    obtain ⟨c, hc, rfl⟩ := List.mem_map.1 hh
    rw [hlabels] at hj
    exact nearest_optimal (faiss_object.L2sqr f32 faiss_object.dimension) index q k c hc j
      r.FeatureVector (by rw [hrow, hr]; rfl) hj
  · intro hk
    rw [List.length_map, hlen]
    exact ⟨min_eq_right (le_of_lt hk), by rw [min_eq_right (le_of_lt hk)]; exact hk⟩

theorem C2_search_returns_min_k_N_nearest_witness :
    ((faiss_object.main_query faiss_object.f32le Engine.healthy faiss_object.scenarioDb
        (faiss_object.padVec (faiss_object.zero_f32 ++ faiss_object.one_f32)) 5).filterMap
        (fun l => l.2)).length
      = min 5 faiss_object.scenarioDb.rows.length ∧
    ((faiss_object.main_query faiss_object.f32le Engine.healthy faiss_object.scenarioDb
        (faiss_object.padVec (faiss_object.zero_f32 ++ faiss_object.one_f32)) 5).filterMap
        (fun l => l.2)).Pairwise (fun a b => a.dis ≤ b.dis) ∧
    (((faiss_object.main_query faiss_object.f32le Engine.healthy faiss_object.scenarioDb
        (faiss_object.padVec (faiss_object.zero_f32 ++ faiss_object.one_f32)) 5).filterMap
        (fun l => l.2)).map (fun h => h.label)).Nodup :=
  have h := C2_search_returns_min_k_N_nearest faiss_object.f32le Engine.healthy
    faiss_object.scenarioDb
    (faiss_object.padVec (faiss_object.zero_f32 ++ faiss_object.one_f32)) 5 ⟨rfl, rfl⟩
    scenarioDb_well_formed
  ⟨h.1, h.2.1, h.2.2.1⟩

/-! ## The spec's concrete scenario, evaluated -/

theorem f32le_one : faiss_object.f32le faiss_object.one_f32 = 1 := by
  have hbits : List.foldr (fun (x : Byte) acc => x.val + 256 * acc) 0 faiss_object.one_f32
      = 1065353216 := by decide
  unfold faiss_object.f32le
  simp only [hbits]
  norm_num

theorem f32le_zero : faiss_object.f32le faiss_object.zero_f32 = 0 := by
  simp [faiss_object.f32le, faiss_object.zero_f32]

theorem floats_cons4 (f32 : Blob → ℚ) (d : Nat) (b rest : Blob) (hb : b.length = 4) :
    faiss_object.floats f32 (d + 1) (b ++ rest) = f32 b :: faiss_object.floats f32 d rest := by
  rw [faiss_object.floats, List.take_left' hb, List.drop_left' hb]

theorem sq_dist_self (l : List ℚ) :
    (List.zipWith (fun a b => (a - b) ^ 2) l l).sum = 0 := by
  induction l with
  | nil => rfl
  | cons a l ih => simp [ih]

set_option maxRecDepth 20000 in
theorem padVec_A : faiss_object.padVec faiss_object.one_f32
    = faiss_object.one_f32 ++ (faiss_object.zero_f32 ++ List.replicate 504 0) := by
  decide


set_option maxRecDepth 20000 in
theorem padVec_B : faiss_object.padVec (faiss_object.zero_f32 ++ faiss_object.one_f32)
    = faiss_object.zero_f32 ++ (faiss_object.one_f32 ++ List.replicate 504 0) := by
  decide

set_option maxRecDepth 20000 in
theorem padVec_C : faiss_object.padVec (faiss_object.one_f32 ++ faiss_object.one_f32)
    = faiss_object.one_f32 ++ (faiss_object.one_f32 ++ List.replicate 504 0) := by
  decide

theorem L2sqr_two (f32 : Blob → ℚ) (d : Nat) (a1 a2 b1 b2 rest : Blob)
    (ha1 : a1.length = 4) (ha2 : a2.length = 4) (hb1 : b1.length = 4) (hb2 : b2.length = 4) :
    faiss_object.L2sqr f32 (d + 2) (a1 ++ (a2 ++ rest)) (b1 ++ (b2 ++ rest))
      = (f32 a1 - f32 b1) ^ 2 + (f32 a2 - f32 b2) ^ 2 := by
  unfold faiss_object.L2sqr
  rw [floats_cons4 f32 (d + 1) a1 _ ha1, floats_cons4 f32 d a2 _ ha2,
    floats_cons4 f32 (d + 1) b1 _ hb1, floats_cons4 f32 d b2 _ hb2]
  simp [sq_dist_self, add_assoc]

/-- The spec's concrete scenario: the store holds "A", "B", "C" with the
embeddings `[1,0,...]`, `[0,1,...]`, `[1,1,...]`; the query `[1,0,...]` with
k = 2 gives slot 0 ("A", distance 0) and then slot 2 ("C", distance 1). -/
theorem scenario_search :
    (faiss_object.main_query faiss_object.f32le Engine.healthy faiss_object.scenarioDb
        (faiss_object.padVec faiss_object.one_f32) 2).filterMap (fun l => l.2)
      = [{ label := 0, dis := 0 }, { label := 2, dis := 1 }] := by
  have hAA := L2sqr_two faiss_object.f32le 126 faiss_object.one_f32 faiss_object.zero_f32
    faiss_object.one_f32 faiss_object.zero_f32 (List.replicate 504 0) rfl rfl rfl rfl
  have hAB := L2sqr_two faiss_object.f32le 126 faiss_object.one_f32 faiss_object.zero_f32
    faiss_object.zero_f32 faiss_object.one_f32 (List.replicate 504 0) rfl rfl rfl rfl
  have hAC := L2sqr_two faiss_object.f32le 126 faiss_object.one_f32 faiss_object.zero_f32
    faiss_object.one_f32 faiss_object.one_f32 (List.replicate 504 0) rfl rfl rfl rfl
  rw [f32le_one, f32le_zero] at hAA hAB hAC
  norm_num at hAA hAB hAC
  unfold faiss_object.main_query
  rw [main_search_results, build_all_good _ _ _ ⟨rfl, rfl⟩ rfl scenarioDb_well_formed]
  simp only [faiss_object.IndexFlatL2.search, faiss_object.nearest, faiss_object.candidates,
    faiss_object.scenarioDb, faiss_object.IndexFlatL2.new, List.nil_append, List.map_cons,
    List.map_nil, List.enum_cons, List.enumFrom_cons, List.enumFrom_nil, List.enum_nil,
    padVec_A, padVec_B, padVec_C]
  have hdim : faiss_object.dimension = 128 := rfl
  rw [hdim, hAA, hAB, hAC]
  simp [List.insertionSort, List.orderedInsert, faiss_object.candLe]

end FaceStore
